import Mathlib

/-!
Verification of the order-lifecycle views of a ticket-sales platform
(pretix control views for orders). The definitions below embed, function by
function, the control flow of the view layer in src/pretix/control/views/orders.py.
External services that the views call (payment marking, the order change
manager, invoice generation, availability checks) live outside the embedded
file; where a property depends on their behaviour they are modelled from the
specification, with a doc comment saying so.
-/

namespace PretixOrders

/-- Order status, mirroring Order.STATUS_PENDING / PAID / EXPIRED / CANCELED /
REFUNDED of the data model. -/
inductive OrderStatus
  | pending
  | paid
  | expired
  | canceled
  | refunded
deriving DecidableEq, Repr

/-- Severity of an operator-facing message, mirroring django.contrib.messages
levels used in the views. -/
inductive MsgLevel
  | success
  | error
  | warning
deriving DecidableEq, Repr

/-- One operator-facing message emitted via messages.success / .error / .warning. -/
structure Msg where
  level : MsgLevel
  text : String
deriving DecidableEq, Repr

/-! ## OrderTransition (status-toggle view) -/

/-- A position of an order, as far as the paid-transition needs it: the item it
references (quota exhaustion is queried per position). -/
structure TPos where
  item : String
deriving DecidableEq, Repr

/-- The slice of an Order that OrderTransition.post reads and writes. -/
structure TOrder where
  status : OrderStatus
  positions : List TPos
  paymentManual : Bool
deriving DecidableEq, Repr

/-- The exceptions OrderTransition.post catches around mark_order_paid:
Quota.QuotaExceededException and SendMailException. -/
inductive PaidExc
  | quotaExceeded (msg : String)
  | sendMail
deriving DecidableEq, Repr

/-- Modelled from the spec: mark_order_paid (pretix.base.services.orders) is
not part of the embedded file. Spec 4.2: the Pending|Expired to Paid
transition succeeds only if quota is still available for every Position; on
quota failure the transition is aborted, the order remains unpaid and the
raised error names the exceeded capacity; a notification failure after the
successful status change leaves the order Paid and raises a mail error.
The quota oracle ex says which positions hit an exhausted quota, quotaMsg is
the message of the raised quota exception, mailOk whether the confirmation
mail could be sent. -/
def mark_order_paid (o : TOrder) (ex : TPos → Bool) (quotaMsg : String)
    (mailOk : Bool) : TOrder × Option PaidExc :=
  if o.positions.any ex then
    (o, some (.quotaExceeded quotaMsg))
  else
    ({ o with status := .paid }, if mailOk then none else some .sendMail)

/-- Modelled from the spec: cancel_order (pretix.base.services.orders) is not
part of the embedded file. Spec 4.2: Pending to Canceled is always permitted;
the inventory reservation is released. -/
def cancel_order (o : TOrder) (_sendMailFlag : Bool) : TOrder :=
  { o with status := .canceled }

/-- Where OrderTransition.post redirects at the end. -/
inductive TResponse
  | redirectOrderUrl
  | redirectTo (url : String)
deriving DecidableEq, Repr

/-- Outcome of one OrderTransition.post request: the order after the request,
the messages shown to the operator, the log actions written by the view
itself, and the redirect. -/
structure TransitionResult where
  order : TOrder
  msgs : List Msg
  logs : List String
  response : TResponse
deriving DecidableEq, Repr

/-- OrderTransition.post: dispatches on the current status and the requested
target status string, exactly following the if/elif chain of the view.
refundRet stands for the return value of the payment provider's refund
control. -/
def OrderTransition.post (o : TOrder) (toStatus : String) (ex : TPos → Bool)
    (quotaMsg : String) (mailOk : Bool) (sendEmail : Bool)
    (refundRet : Option String) : TransitionResult :=
  if (o.status == .pending || o.status == .expired) && toStatus == "p" then
    match mark_order_paid o ex quotaMsg mailOk with
    | (o2, some (.quotaExceeded m)) =>
        ⟨o2, [⟨.error, m⟩], [], .redirectOrderUrl⟩
    | (o2, some .sendMail) =>
        ⟨o2, [⟨.warning, "The order has been marked as paid, but we were unable to send a confirmation mail."⟩],
         [], .redirectOrderUrl⟩
    | (o2, none) =>
        ⟨o2, [⟨.success, "The order has been marked as paid."⟩], [], .redirectOrderUrl⟩
  else if o.status == .pending && toStatus == "c" then
    ⟨cancel_order o sendEmail, [⟨.success, "The order has been canceled."⟩], [], .redirectOrderUrl⟩
  else if o.status == .paid && toStatus == "n" then
    ⟨{ o with status := .pending, paymentManual := true },
     [⟨.success, "The order has been marked as not paid."⟩],
     ["pretix.event.order.unpaid"], .redirectOrderUrl⟩
  else if o.status == .pending && toStatus == "e" then
    ⟨{ o with status := .expired },
     [⟨.success, "The order has been marked as expired."⟩],
     ["pretix.event.order.expired"], .redirectOrderUrl⟩
  else if o.status == .paid && toStatus == "r" then
    match refundRet with
    | some url => ⟨o, [], [], .redirectTo url⟩
    | none => ⟨o, [], [], .redirectOrderUrl⟩
  else
    ⟨o, [], [], .redirectOrderUrl⟩

/-! ## OrderExtend (payment-deadline extension view) -/

/-- A position of an order, as far as the availability re-check of the
extend-expiry flow needs it. -/
structure EPos where
  item : String
deriving DecidableEq, Repr

/-- The slice of an Order that OrderExtend reads and writes: status, the
expiry timestamp the ExtendForm edits, and the positions re-checked on
revival. -/
structure EOrder where
  status : OrderStatus
  expires : Nat
  positions : List EPos
deriving DecidableEq, Repr

/-- The specific unavailability reason for one position, as returned (truthy
string) by the availability re-check. -/
def unavailableReason (p : EPos) : String :=
  "Some of the ordered products are no longer available: " ++ p.item

/-- Modelled from the spec: Order._is_still_available (pretix.base.models) is
not part of the embedded file. Spec 4.4/4.1: under the lock, availability is
re-validated for every existing Position; if any Position's inventory is
exhausted the specific unavailability reason is returned, otherwise the check
reports available. Python returns True or an error string; here none means
available and some r carries the reason for the first exhausted position. -/
def isStillAvailable (o : EOrder) (ex : EPos → Bool) : Option String :=
  match o.positions.find? ex with
  | some p => some (unavailableReason p)
  | none => none

/-- What OrderExtend.post answers with. -/
inductive EResponse
  | redirectBack
  | renderForm
deriving DecidableEq, Repr

/-- Outcome of one OrderExtend.post request: the order afterwards, operator
messages, the expiry-change log entries written (action, logged expires value,
state_change flag), whether lock acquisition was attempted, whether the
availability re-check ran, and the response. -/
structure ExtendResult where
  order : EOrder
  msgs : List Msg
  logs : List (String × Nat × Bool)
  lockAttempted : Bool
  availabilityChecked : Bool
  response : EResponse
deriving DecidableEq, Repr

/-- OrderExtend.post: for a valid form, a Pending order only gets the new
deadline saved (no lock, no availability check); otherwise (an Expired order,
by dispatch) the event lock is taken, availability is re-checked, and only on
success the deadline is saved and the status becomes Pending. lockOk = false
stands for LockTimeoutException during lock acquisition. -/
def OrderExtend.post (o : EOrder) (formValid : Bool) (newExpires : Nat)
    (lockOk : Bool) (ex : EPos → Bool) : ExtendResult :=
  if formValid then
    if o.status == .pending then
      ⟨{ o with expires := newExpires },
       [⟨.success, "The payment term has been changed."⟩],
       [("pretix.event.order.expirychanged", o.expires, false)],
       false, false, .redirectBack⟩
    else
      if lockOk then
        match isStillAvailable o ex with
        | none =>
            ⟨{ o with expires := newExpires, status := .pending },
             [⟨.success, "The payment term has been changed."⟩],
             [("pretix.event.order.expirychanged", newExpires, true)],
             true, true, .redirectBack⟩
        | some reason =>
            ⟨o, [⟨.error, reason⟩], [], true, true, .redirectBack⟩
      else
        ⟨o, [⟨.error, "We were not able to process the request completely as the server was too busy."⟩],
         [], true, false, .redirectBack⟩
  else
    ⟨o, [], [], false, false, .renderForm⟩

/-- A value passed along to a Django view: enough structure to distinguish a
keyword name (string) from other arguments. -/
inductive PyVal
  | str (s : String)
  | num (n : Nat)
deriving DecidableEq, Repr

/-- The argument tuple a dispatch override hands to the parent class's
dispatch: the request plus positional and keyword arguments. -/
structure DispatchCall where
  request : Nat
  posArgs : List PyVal
  kwArgs : List (String × PyVal)
deriving DecidableEq, Repr

/-- Result of a dispatch guard: either an error-message redirect back to the
order page, or the call forwarded to the parent class. -/
inductive DispatchResult
  | redirectBack (errMsg : String)
  | superDispatch (call : DispatchCall)
deriving DecidableEq, Repr

/-- OrderExtend.dispatch: rejects orders that are neither Pending nor Expired;
otherwise forwards to super().dispatch(request, *kwargs, **kwargs) - note the
source really unpacks kwargs positionally, so the keyword names become the
positional arguments and the original args are dropped. -/
def OrderExtend.dispatch (o : EOrder) (request : Nat) (args : List PyVal)
    (kwargs : List (String × PyVal)) : DispatchResult :=
  if o.status == .pending || o.status == .expired then
    .superDispatch ⟨request, kwargs.map (fun kv => PyVal.str kv.1), kwargs⟩
  else
    .redirectBack "This action is only allowed for pending orders."

/-! ## OrderChange (batch-change view) -/

/-- The add form of a batch: whether it validates, whether an add was actually
requested (the do checkbox), and whether the change manager's add_position
call raises an OrderError (and with which message). -/
structure AddSpec where
  formValid : Bool
  doAdd : Bool
  addError : Option String
deriving DecidableEq, Repr

/-- The operation selected on one position's change form. -/
inductive PosOp
  | product
  | price
  | subevent
  | cancel
deriving DecidableEq, Repr

/-- One position row of the batch: the position's key, whether its form
validates, the selected operation, and whether the corresponding change
manager call raises an OrderError (and with which message). -/
structure PosSpec where
  pk : Nat
  formValid : Bool
  op : PosOp
  opError : Option String
deriving DecidableEq, Repr

/-- An operation recorded in the change manager. -/
inductive QueuedOp
  | add
  | forPos (pk : Nat) (op : PosOp)
deriving DecidableEq, Repr

/-- The per-request processing state of OrderChange: the inline error attached
to the add form (add_form.custom_error), the inline errors attached to
individual positions (p.custom_error), and the operations recorded in the
change manager. -/
structure ChangeState where
  addCustomError : Option String
  posCustomErrors : List (Nat × String)
  queuedOps : List QueuedOp
deriving DecidableEq, Repr

/-- The state at the start of OrderChange.post: a fresh manager, no inline
errors. -/
def emptyChangeState : ChangeState := ⟨none, [], []⟩

/-- OrderChange._process_add: an invalid add form fails the batch; a requested
add whose add_position call raises attaches the message to the add form and
fails the batch; otherwise the operation (if any) is recorded. -/
def processAdd (a : AddSpec) (st : ChangeState) : ChangeState × Bool :=
  if !a.formValid then (st, false)
  else if a.doAdd then
    match a.addError with
    | some e => ({ st with addCustomError := some e }, false)
    | none => ({ st with queuedOps := st.queuedOps ++ [.add] }, true)
  else (st, true)

/-- OrderChange._process_change: walks the position rows in order; the first
invalid form stops the batch; the first change-manager call that raises
attaches the message to that position and stops the batch; otherwise each
operation is recorded. -/
def processChange : List PosSpec → ChangeState → ChangeState × Bool
  | [], st => (st, true)
  | p :: rest, st =>
    if !p.formValid then (st, false)
    else
      match p.opError with
      | some e => ({ st with posCustomErrors := st.posCustomErrors ++ [(p.pk, e)] }, false)
      | none => processChange rest { st with queuedOps := st.queuedOps ++ [.forPos p.pk p.op] }

/-- How OrderChange.post answers: re-render the batch page or redirect back on
success. -/
inductive CResponse
  | renderPage
  | redirectBack
deriving DecidableEq, Repr

/-- Outcome of one OrderChange.post request: the processing state, whether
commit was invoked on the manager, the top-level messages, and the
response. -/
structure ChangeResult where
  state : ChangeState
  commitCalled : Bool
  msgs : List Msg
  response : CResponse
deriving DecidableEq, Repr

/-- OrderChange.post: runs _process_add and (short-circuit and) then
_process_change on a fresh manager; if either failed, one generic top-level
error and a re-render, without commit; otherwise ocm.commit() runs, whose
OrderError (commitError) is surfaced as the single top-level error. -/
def OrderChange.post (a : AddSpec) (ps : List PosSpec)
    (commitError : Option String) : ChangeResult :=
  match processAdd a emptyChangeState with
  | (st1, false) =>
      ⟨st1, false, [⟨.error, "An error occured. Please see the details below."⟩], .renderPage⟩
  | (st1, true) =>
      match processChange ps st1 with
      | (st2, false) =>
          ⟨st2, false, [⟨.error, "An error occured. Please see the details below."⟩], .renderPage⟩
      | (st2, true) =>
          match commitError with
          | some e => ⟨st2, true, [⟨.error, e⟩], .renderPage⟩
          | none =>
              ⟨st2, true, [⟨.success, "The order has been changed and the user has been notified."⟩],
               .redirectBack⟩

/-- OrderChange.dispatch: rejects orders that are neither Pending nor Paid
with an error redirect (so no change manager is ever created and nothing is
queued); otherwise forwards to super().dispatch(request, *args, **kwargs). -/
def OrderChange.dispatch (status : OrderStatus) (request : Nat)
    (args : List PyVal) (kwargs : List (String × PyVal)) : DispatchResult :=
  if status == .pending || status == .paid then
    .superDispatch ⟨request, args, kwargs⟩
  else
    .redirectBack "This action is only allowed for pending or paid orders."

/-! ## Invoice regenerate / reissue views -/

/-- The slice of an Invoice the views read: its key and the canceled flag. -/
structure PInvoice where
  pk : Nat
  canceled : Bool
deriving DecidableEq, Repr

/-- The externally visible effects of the invoice views, in the order they
happen: a cancellation record created for an old invoice, a new invoice
generated, an audit log entry referencing an invoice. -/
inductive InvEvent
  | cancellationCreated (oldInvoicePk : Nat)
  | invoiceGenerated (newPk : Nat)
  | logAction (action : String) (invoicePk : Nat)
deriving DecidableEq, Repr

/-- Modelled from the spec: generate_cancellation (pretix.base.services.
invoices) is not part of the embedded file. Spec 6: Cancel(invoice) creates a
CancellationRecord for it. Modelled as the event it emits. -/
def generate_cancellation (inv : PInvoice) : List InvEvent :=
  [.cancellationCreated inv.pk]

/-- Modelled from the spec: generate_invoice (pretix.base.services.invoices)
is not part of the embedded file. Spec 6: Generate(order) issues a new,
un-canceled Invoice. freshPk is the key of the newly issued invoice. -/
def generate_invoice (freshPk : Nat) : PInvoice × List InvEvent :=
  (⟨freshPk, false⟩, [.invoiceGenerated freshPk])

/-- Modelled from the spec: regenerate_invoice (pretix.base.services.invoices)
is not part of the embedded file. Spec 3: regenerating an invoice creates a
cancellation record for the old one before issuing a new one. -/
def regenerate_invoice (inv : PInvoice) (freshPk : Nat) : PInvoice × List InvEvent :=
  let c := generate_cancellation inv
  let g := generate_invoice freshPk
  (g.1, c ++ g.2)

/-- Outcome of an invoice view request: the effects performed, in order, and
the operator messages. -/
structure InvoiceResult where
  events : List InvEvent
  msgs : List Msg
deriving DecidableEq, Repr

/-- OrderInvoiceRegenerate.post: unknown invoice and already-canceled invoice
are rejected with an error and no effect; otherwise regenerate_invoice runs
and the regeneration is logged with the new invoice's key. -/
def OrderInvoiceRegenerate.post (lookup : Option PInvoice) (freshPk : Nat) : InvoiceResult :=
  match lookup with
  | none => ⟨[], [⟨.error, "Unknown invoice."⟩]⟩
  | some inv =>
      if inv.canceled then
        ⟨[], [⟨.error, "The invoice has already been canceled."⟩]⟩
      else
        let r := regenerate_invoice inv freshPk
        ⟨r.2 ++ [.logAction "pretix.event.order.invoice.regenerated" r.1.pk],
         [⟨.success, "The invoice has been regenerated."⟩]⟩

/-- OrderInvoiceReissue.post: unknown invoice and already-canceled invoice are
rejected with an error and no effect; otherwise a cancellation record for the
old invoice is created first, then the new invoice is generated, and the
reissue is logged with the new invoice's key. -/
def OrderInvoiceReissue.post (lookup : Option PInvoice) (freshPk : Nat) : InvoiceResult :=
  match lookup with
  | none => ⟨[], [⟨.error, "Unknown invoice."⟩]⟩
  | some inv =>
      if inv.canceled then
        ⟨[], [⟨.error, "The invoice has already been canceled."⟩]⟩
      else
        let c := generate_cancellation inv
        let g := generate_invoice freshPk
        ⟨c ++ g.2 ++ [.logAction "pretix.event.order.invoice.reissued" g.1.pk],
         [⟨.success, "The invoice has been reissued."⟩]⟩

/-! ## OrderContactChange view -/

/-- The slice of a position OrderContactChange touches: its key and its
per-position secret. -/
structure CPos where
  pk : Nat
  secret : String
deriving DecidableEq, Repr

/-- The slice of an Order OrderContactChange touches. -/
structure COrder where
  email : String
  secret : String
  positions : List CPos
deriving DecidableEq, Repr

/-- The per-position loop of the regenerate-secrets branch: assigns each
position the next freshly generated secret, in iteration order. -/
def regenPositions (g : Nat → String) : Nat → List CPos → List CPos
  | _, [] => []
  | i, p :: rest => { p with secret := g i } :: regenPositions g (i + 1) rest

/-- How OrderContactChange.post answers. -/
inductive CtResponse
  | redirectOrderUrl
  | renderForm
deriving DecidableEq, Repr

/-- Outcome of one OrderContactChange.post request: the order afterwards,
whether the order's cached tickets were deleted, the log actions written, the
messages, and the response. -/
structure ContactResult where
  order : COrder
  cachedTicketsDeleted : Bool
  logs : List String
  msgs : List Msg
  response : CtResponse
deriving DecidableEq, Repr

/-- OrderContactChange.post: a valid form logs the contact change and saves
the new email; with regenerate_secrets set it additionally gives the order
and every position a freshly generated secret, deletes the order's cached
tickets, and logs the secret change. freshSecret models generate_secret(),
g models the successive generate_position_secret() calls. -/
def OrderContactChange.post (o : COrder) (formValid : Bool) (newEmail : String)
    (regenerateSecrets : Bool) (freshSecret : String) (g : Nat → String) : ContactResult :=
  if formValid then
    if regenerateSecrets then
      ⟨{ email := newEmail, secret := freshSecret,
         positions := regenPositions g 0 o.positions },
       true,
       ["pretix.event.order.contact.changed", "pretix.event.order.secret.changed"],
       [⟨.success, "The order has been changed."⟩], .redirectOrderUrl⟩
    else
      ⟨{ o with email := newEmail }, false,
       ["pretix.event.order.contact.changed"],
       [⟨.success, "The order has been changed."⟩], .redirectOrderUrl⟩
  else
    ⟨o, false, [], [], .renderForm⟩

end PretixOrders

namespace PretixOrders

/-- Claim C1: for every order whose status is Pending or Expired, requesting
the transition to Paid while quota is exhausted for some Position fails with
the quota error, surfaces that error to the operator, and leaves the order's
status unchanged (still Pending or Expired, not Paid). -/
theorem c1_paid_transition_quota_exhausted (o : TOrder) (ex : TPos → Bool)
    (quotaMsg : String) (mailOk sendEmail : Bool) (refundRet : Option String)
    (hst : o.status = .pending ∨ o.status = .expired)
    (hex : o.positions.any ex = true) :
    (OrderTransition.post o "p" ex quotaMsg mailOk sendEmail refundRet).order = o ∧
    (OrderTransition.post o "p" ex quotaMsg mailOk sendEmail refundRet).msgs
      = [⟨.error, quotaMsg⟩] ∧
    (OrderTransition.post o "p" ex quotaMsg mailOk sendEmail refundRet).order.status ≠ .paid := by
  have hcond : (o.status == OrderStatus.pending || o.status == OrderStatus.expired) = true := by
    rcases hst with h | h <;> simp [h]
  have hne : o.status ≠ .paid := by
    rcases hst with h | h <;> simp [h]
  simp [OrderTransition.post, mark_order_paid, hcond, hex, hne]

theorem c1_witness :
    ((⟨.pending, [⟨"T"⟩], false⟩ : TOrder).status = .pending ∨ (⟨.pending, [⟨"T"⟩], false⟩ : TOrder).status = .expired) ∧
    (⟨.pending, [⟨"T"⟩], false⟩ : TOrder).positions.any (fun _ => true) = true ∧
    (OrderTransition.post ⟨.pending, [⟨"T"⟩], false⟩ "p" (fun _ => true) "quota full" true true none).order
      = ⟨.pending, [⟨"T"⟩], false⟩ :=
  ⟨Or.inl rfl, rfl,
   (c1_paid_transition_quota_exhausted ⟨.pending, [⟨"T"⟩], false⟩ (fun _ => true)
      "quota full" true true none (Or.inl rfl) rfl).1⟩

/-- Claim C4: if the transition of a Pending or Expired order to Paid succeeds
but sending the confirmation notification fails, the Paid status is not
rolled back, and the failure is reported as a non-fatal warning. -/
theorem c4_mail_failure_not_rolled_back (o : TOrder) (ex : TPos → Bool)
    (quotaMsg : String) (sendEmail : Bool) (refundRet : Option String)
    (hst : o.status = .pending ∨ o.status = .expired)
    (hav : o.positions.any ex = false) :
    (OrderTransition.post o "p" ex quotaMsg false sendEmail refundRet).order.status = .paid ∧
    (OrderTransition.post o "p" ex quotaMsg false sendEmail refundRet).msgs
      = [⟨.warning, "The order has been marked as paid, but we were unable to send a confirmation mail."⟩] := by
  have hcond : (o.status == OrderStatus.pending || o.status == OrderStatus.expired) = true := by
    rcases hst with h | h <;> simp [h]
  simp [OrderTransition.post, mark_order_paid, hcond, hav]

theorem c4_witness :
    ((⟨.expired, [⟨"T"⟩], false⟩ : TOrder).status = .pending ∨ (⟨.expired, [⟨"T"⟩], false⟩ : TOrder).status = .expired) ∧
    (⟨.expired, [⟨"T"⟩], false⟩ : TOrder).positions.any (fun _ => false) = false ∧
    (OrderTransition.post ⟨.expired, [⟨"T"⟩], false⟩ "p" (fun _ => false) "q" false true none).order.status = .paid :=
  ⟨Or.inr rfl, rfl,
   (c4_mail_failure_not_rolled_back ⟨.expired, [⟨"T"⟩], false⟩ (fun _ => false)
      "q" true none (Or.inr rfl) rfl).1⟩

/-- Claim C2: extending the deadline of an Expired order takes the event lock
and re-validates availability of every existing Position under it; if some
Position's inventory is exhausted the revival is refused, the specific reason
is shown, and the order is left untouched (still Expired); otherwise the new
deadline is saved and the status becomes Pending. For a Pending order only
the deadline is saved, with no lock and no availability check. The last
conjunct ties the availability check to the positions: it reports available
exactly when no existing Position is exhausted. -/
theorem c2_extend_expired_revalidates (o : EOrder) (newE : Nat) (ex : EPos → Bool) :
    (o.status = .pending →
      ∀ lockOk, OrderExtend.post o true newE lockOk ex =
        ⟨{ o with expires := newE }, [⟨.success, "The payment term has been changed."⟩],
         [("pretix.event.order.expirychanged", o.expires, false)], false, false, .redirectBack⟩) ∧
    (o.status = .expired →
      (∀ p, o.positions.find? ex = some p →
        OrderExtend.post o true newE true ex =
          ⟨o, [⟨.error, unavailableReason p⟩], [], true, true, .redirectBack⟩) ∧
      (o.positions.find? ex = none →
        (OrderExtend.post o true newE true ex).order.status = .pending ∧
        (OrderExtend.post o true newE true ex).order.expires = newE ∧
        (OrderExtend.post o true newE true ex).lockAttempted = true ∧
        (OrderExtend.post o true newE true ex).availabilityChecked = true)) ∧
    (isStillAvailable o ex = none ↔ ∀ p ∈ o.positions, ex p = false) := by
  refine ⟨?_, ?_, ?_⟩
  · intro h lockOk
    simp [OrderExtend.post, h]
  · intro h
    constructor
    · intro p hfind
      simp [OrderExtend.post, isStillAvailable, h, hfind]
    · intro hfind
      simp [OrderExtend.post, isStillAvailable, h, hfind]
  · constructor
    · intro hnone
      have : o.positions.find? ex = none := by
        by_contra hc
        rcases Option.ne_none_iff_exists.mp hc with ⟨p, hp⟩
        simp [isStillAvailable, hp.symm] at hnone
      intro p hp
      have := List.find?_eq_none.mp this p hp
      simpa using this
    · intro hall
      have : o.positions.find? ex = none := List.find?_eq_none.mpr (by simpa using hall)
      simp [isStillAvailable, this]

theorem c2_witness :
    (OrderExtend.post ⟨.expired, 5, [⟨"X"⟩]⟩ true 9 true (fun _ => true)).order.status = .expired ∧
    (OrderExtend.post ⟨.expired, 5, [⟨"X"⟩]⟩ true 9 true (fun _ => false)).order.status = .pending ∧
    (OrderExtend.post ⟨.pending, 5, []⟩ true 9 true (fun _ => true)).order.expires = 9 := by
  refine ⟨?_, ?_, ?_⟩
  · have h := ((c2_extend_expired_revalidates ⟨.expired, 5, [⟨"X"⟩]⟩ 9 (fun _ => true)).2.1 rfl).1 ⟨"X"⟩ rfl
    rw [h]
  · exact (((c2_extend_expired_revalidates ⟨.expired, 5, [⟨"X"⟩]⟩ 9 (fun _ => false)).2.1 rfl).2 rfl).1
  · have h := (c2_extend_expired_revalidates ⟨.pending, 5, []⟩ 9 (fun _ => true)).1 rfl true
    rw [h]

/-- Claim C7: if the event lock cannot be acquired within its bound while
reviving an Expired order, the view reports the distinguishable
server-too-busy error and leaves status and expiry unchanged. -/
theorem c7_lock_timeout_reported (o : EOrder) (newE : Nat) (ex : EPos → Bool)
    (h : o.status = .expired) :
    OrderExtend.post o true newE false ex =
      ⟨o, [⟨.error, "We were not able to process the request completely as the server was too busy."⟩],
       [], true, false, .redirectBack⟩ := by
  simp [OrderExtend.post, h]

theorem c7_witness :
    (⟨.expired, 5, [⟨"X"⟩]⟩ : EOrder).status = .expired ∧
    OrderExtend.post ⟨.expired, 5, [⟨"X"⟩]⟩ true 9 false (fun _ => true) =
      ⟨⟨.expired, 5, [⟨"X"⟩]⟩,
       [⟨.error, "We were not able to process the request completely as the server was too busy."⟩],
       [], true, false, .redirectBack⟩ :=
  ⟨rfl, c7_lock_timeout_reported ⟨.expired, 5, [⟨"X"⟩]⟩ 9 (fun _ => true) rfl⟩

/-- Claim C9 fails on the code: OrderExtend.dispatch forwards
super().dispatch(request, *kwargs, **kwargs), so the keyword-argument names
are passed as the positional arguments and the view's original positional
arguments are dropped, instead of being forwarded unchanged. Evaluated here
on a Pending order with args = [7] and kwargs = ("code", "FOO"): the parent
receives positional ["code"], not [7]. -/
theorem c9_dispatch_forwards_kwargs_positionally :
    OrderExtend.dispatch ⟨.pending, 0, []⟩ 1 [PyVal.num 7] [("code", PyVal.str "FOO")] =
      .superDispatch ⟨1, [PyVal.str "code"], [("code", PyVal.str "FOO")]⟩ ∧
    [PyVal.str "code"] ≠ [PyVal.num 7] := by
  exact ⟨rfl, by decide⟩

/-- A successful _process_add pass leaves both inline-error fields as they
were. -/
theorem processAdd_ok_preserves_errors (a : AddSpec) (st : ChangeState)
    (h : (processAdd a st).2 = true) :
    (processAdd a st).1.addCustomError = st.addCustomError ∧
    (processAdd a st).1.posCustomErrors = st.posCustomErrors := by
  by_cases hv : a.formValid
  · by_cases hd : a.doAdd
    · cases hae : a.addError with
      | some e => simp [processAdd, hv, hd, hae] at h
      | none => simp [processAdd, hv, hd, hae]
    · simp [processAdd, hv, hd]
  · simp [processAdd, hv] at h

/-- A successful _process_change pass leaves both inline-error fields as they
were. -/
theorem processChange_ok_preserves_errors (ps : List PosSpec) :
    ∀ st : ChangeState, (processChange ps st).2 = true →
      (processChange ps st).1.addCustomError = st.addCustomError ∧
      (processChange ps st).1.posCustomErrors = st.posCustomErrors := by
  induction ps with
  | nil => intro st h; simp [processChange]
  | cons p rest ih =>
    intro st h
    by_cases hv : p.formValid
    · cases hoe : p.opError with
      | some e => simp [processChange, hv, hoe] at h
      | none =>
          simp only [processChange, hv, Bool.not_true, Bool.false_eq_true,
            if_false, hoe] at h ⊢
          exact ih _ h
    · simp [processChange, hv] at h

/-- _process_change on position rows whose forms validate and whose change
manager calls do not raise reports success. -/
theorem processChange_clean_ok (ps : List PosSpec) :
    ∀ st : ChangeState, (∀ q ∈ ps, q.formValid = true ∧ q.opError = none) →
      (processChange ps st).2 = true := by
  induction ps with
  | nil => intro st _; simp [processChange]
  | cons p rest ih =>
    intro st h
    have hp := h p (by simp)
    simp only [processChange, hp.1, hp.2, Bool.not_true, Bool.false_eq_true, if_false]
    exact ih _ (fun q hq => h q (by simp [hq]))

/-- When every row before p is clean and p's change-manager call raises e,
_process_change attaches e inline to exactly p and reports failure. -/
theorem processChange_fail_attaches (p : PosSpec) (e : String) (l2 : List PosSpec)
    (hv : p.formValid = true) (he : p.opError = some e) :
    ∀ (l : List PosSpec) (st : ChangeState),
      (∀ q ∈ l, q.formValid = true ∧ q.opError = none) →
      (processChange (l ++ p :: l2) st).1.posCustomErrors
          = st.posCustomErrors ++ [(p.pk, e)] ∧
      (processChange (l ++ p :: l2) st).1.addCustomError = st.addCustomError ∧
      (processChange (l ++ p :: l2) st).2 = false := by
  intro l
  induction l with
  | nil =>
    intro st _
    simp [processChange, hv, he]
  | cons q rest ih =>
    intro st h
    have hq := h q (by simp)
    simp only [List.cons_append, processChange, hq.1, hq.2, Bool.not_true,
      Bool.false_eq_true, if_false]
    exact ih _ (fun r hr => h r (by simp [hr]))

/-- Claim C3: in the batch-change view, an operation that fails early
validation gets its error attached inline to that specific operation (the add
form, or the individual position row when every earlier row passed), commit
is invoked only when every queued operation was recorded without an inline
error, and an OrderError raised by commit itself is surfaced as the single
top-level error of the batch. -/
theorem c3_batch_error_propagation (a : AddSpec) (ps l l2 : List PosSpec)
    (p : PosSpec) (ce : Option String) (e ce1 : String) :
    ((OrderChange.post a ps ce).commitCalled = true →
      (OrderChange.post a ps ce).state.addCustomError = none ∧
      (OrderChange.post a ps ce).state.posCustomErrors = []) ∧
    (a.formValid = true → a.doAdd = true → a.addError = some e →
      (OrderChange.post a ps ce).state.addCustomError = some e ∧
      (OrderChange.post a ps ce).commitCalled = false ∧
      (OrderChange.post a ps ce).msgs
        = [⟨.error, "An error occured. Please see the details below."⟩]) ∧
    (ps = l ++ p :: l2 → (processAdd a emptyChangeState).2 = true →
      (∀ q ∈ l, q.formValid = true ∧ q.opError = none) →
      p.formValid = true → p.opError = some e →
      (OrderChange.post a ps ce).state.posCustomErrors = [(p.pk, e)] ∧
      (OrderChange.post a ps ce).commitCalled = false ∧
      (OrderChange.post a ps ce).msgs
        = [⟨.error, "An error occured. Please see the details below."⟩]) ∧
    ((OrderChange.post a ps (some ce1)).commitCalled = true →
      (OrderChange.post a ps (some ce1)).msgs = [⟨.error, ce1⟩]) := by
  refine ⟨?_, ?_, ?_, ?_⟩
  · intro h
    rcases hpa : processAdd a emptyChangeState with ⟨st1, b1⟩
    cases b1 with
    | false => simp [OrderChange.post, hpa] at h
    | true =>
        rcases hpc : processChange ps st1 with ⟨st2, b2⟩
        cases b2 with
        | false => simp [OrderChange.post, hpa, hpc] at h
        | true =>
            have h1 := processAdd_ok_preserves_errors a emptyChangeState (by rw [hpa])
            rw [hpa] at h1
            have h2 := processChange_ok_preserves_errors ps st1 (by rw [hpc])
            rw [hpc] at h2
            cases ce with
            | some e0 =>
                simp [OrderChange.post, hpa, hpc]
                exact ⟨h2.1.trans h1.1, h2.2.trans h1.2⟩
            | none =>
                simp [OrderChange.post, hpa, hpc]
                exact ⟨h2.1.trans h1.1, h2.2.trans h1.2⟩
  · intro hv hd hae
    simp [OrderChange.post, processAdd, hv, hd, hae]
  · intro hps hadd hclean hv hoe
    rcases hpa : processAdd a emptyChangeState with ⟨st1, b1⟩
    rw [hpa] at hadd
    cases b1 with
    | false => simp at hadd
    | true =>
        have h1 := processAdd_ok_preserves_errors a emptyChangeState (by rw [hpa])
        rw [hpa] at h1
        have h2 := processChange_fail_attaches p e l2 hv hoe l st1 hclean
        rcases hpc : processChange (l ++ p :: l2) st1 with ⟨st2, b2⟩
        rw [hpc] at h2
        cases b2 with
        | true => simp at h2
        | false =>
            subst hps
            simp [OrderChange.post, hpa, hpc]
            have : st1.posCustomErrors = [] := h1.2
            rw [this] at h2
            simpa using h2.1
  · intro h
    rcases hpa : processAdd a emptyChangeState with ⟨st1, b1⟩
    cases b1 with
    | false => simp [OrderChange.post, hpa] at h
    | true =>
        rcases hpc : processChange ps st1 with ⟨st2, b2⟩
        cases b2 with
        | false => simp [OrderChange.post, hpa, hpc] at h
        | true => simp [OrderChange.post, hpa, hpc]

theorem c3_witness :
    (OrderChange.post ⟨true, true, none⟩ [⟨4, true, .price, some "Not enough quota"⟩] none).commitCalled = false ∧
    (OrderChange.post ⟨true, true, none⟩ [⟨4, true, .price, some "Not enough quota"⟩] none).state.posCustomErrors
      = [(4, "Not enough quota")] ∧
    (OrderChange.post ⟨true, true, some "No such item"⟩ [] none).state.addCustomError = some "No such item" ∧
    (OrderChange.post ⟨true, false, none⟩ [⟨4, true, .cancel, none⟩] (some "Quota exceeded")).msgs
      = [⟨.error, "Quota exceeded"⟩] := by
  have h1 := c3_batch_error_propagation ⟨true, true, none⟩
    [⟨4, true, .price, some "Not enough quota"⟩] [] []
    ⟨4, true, .price, some "Not enough quota"⟩ none "Not enough quota" "x"
  have h2 := c3_batch_error_propagation ⟨true, true, some "No such item"⟩ [] [] []
    ⟨0, true, .price, none⟩ none "No such item" "x"
  have h3 := c3_batch_error_propagation ⟨true, false, none⟩ [⟨4, true, .cancel, none⟩] [] []
    ⟨0, true, .price, none⟩ (some "Quota exceeded") "y" "Quota exceeded"
  refine ⟨?_, ?_, ?_, ?_⟩
  · exact (h1.2.2.1 rfl rfl (by simp) rfl rfl).2.1
  · exact (h1.2.2.1 rfl rfl (by simp) rfl rfl).1
  · exact (h2.2.1 rfl rfl rfl).1
  · exact h3.2.2.2 (by rfl)

/-- Claim C8: for every order whose status is neither Pending nor Paid, the
batch-change view's dispatch refuses the request with an error redirect, so
the handler never runs: no change manager is created and no operation is
queued. -/
theorem c8_change_dispatch_guard (status : OrderStatus) (request : Nat)
    (args : List PyVal) (kwargs : List (String × PyVal))
    (h1 : status ≠ .pending) (h2 : status ≠ .paid) :
    OrderChange.dispatch status request args kwargs =
      .redirectBack "This action is only allowed for pending or paid orders." := by
  simp [OrderChange.dispatch, h1, h2]

theorem c8_witness :
    OrderChange.dispatch .expired 0 [] [("code", PyVal.str "A")] =
      .redirectBack "This action is only allowed for pending or paid orders." ∧
    OrderChange.dispatch .canceled 0 [] [] =
      .redirectBack "This action is only allowed for pending or paid orders." ∧
    OrderChange.dispatch .refunded 1 [PyVal.num 2] [] =
      .redirectBack "This action is only allowed for pending or paid orders." :=
  ⟨c8_change_dispatch_guard .expired 0 [] [("code", PyVal.str "A")] (by decide) (by decide),
   c8_change_dispatch_guard .canceled 0 [] [] (by decide) (by decide),
   c8_change_dispatch_guard .refunded 1 [PyVal.num 2] [] (by decide) (by decide)⟩

/-- Claim C5: for a canceled invoice, both regenerate and reissue are rejected
with an error and perform no effect at all: no cancellation record, no new
invoice, no audit entry (the event list stays empty). -/
theorem c5_canceled_invoice_rejected (inv : PInvoice) (freshPk : Nat)
    (h : inv.canceled = true) :
    OrderInvoiceRegenerate.post (some inv) freshPk =
      ⟨[], [⟨.error, "The invoice has already been canceled."⟩]⟩ ∧
    OrderInvoiceReissue.post (some inv) freshPk =
      ⟨[], [⟨.error, "The invoice has already been canceled."⟩]⟩ := by
  constructor <;> simp [OrderInvoiceRegenerate.post, OrderInvoiceReissue.post, h]

theorem c5_witness :
    (⟨3, true⟩ : PInvoice).canceled = true ∧
    OrderInvoiceRegenerate.post (some ⟨3, true⟩) 9 =
      ⟨[], [⟨.error, "The invoice has already been canceled."⟩]⟩ ∧
    OrderInvoiceReissue.post (some ⟨3, true⟩) 9 =
      ⟨[], [⟨.error, "The invoice has already been canceled."⟩]⟩ :=
  ⟨rfl, (c5_canceled_invoice_rejected ⟨3, true⟩ 9 rfl).1,
   (c5_canceled_invoice_rejected ⟨3, true⟩ 9 rfl).2⟩

/-- Claim C6: reissuing a non-canceled invoice first creates a cancellation
record for the old invoice and only then generates the new invoice, in that
order, and logs the reissue with a reference to the new invoice. -/
theorem c6_reissue_cancel_then_generate (inv : PInvoice) (freshPk : Nat)
    (h : inv.canceled = false) :
    OrderInvoiceReissue.post (some inv) freshPk =
      ⟨[.cancellationCreated inv.pk, .invoiceGenerated freshPk,
        .logAction "pretix.event.order.invoice.reissued" freshPk],
       [⟨.success, "The invoice has been reissued."⟩]⟩ := by
  simp [OrderInvoiceReissue.post, generate_cancellation, generate_invoice, h]

theorem c6_witness :
    (⟨3, false⟩ : PInvoice).canceled = false ∧
    OrderInvoiceReissue.post (some ⟨3, false⟩) 9 =
      ⟨[.cancellationCreated 3, .invoiceGenerated 9,
        .logAction "pretix.event.order.invoice.reissued" 9],
       [⟨.success, "The invoice has been reissued."⟩]⟩ :=
  ⟨rfl, c6_reissue_cancel_then_generate ⟨3, false⟩ 9 rfl⟩

/-- The regenerated positions carry exactly the successive fresh secrets, in
iteration order. -/
theorem regenPositions_secrets (g : Nat → String) :
    ∀ (ps : List CPos) (i : Nat),
      (regenPositions g i ps).map CPos.secret = (List.range' i ps.length).map g := by
  intro ps
  induction ps with
  | nil => intro i; simp [regenPositions]
  | cons p rest ih =>
      intro i
      simp [regenPositions, List.range'_succ, ih]

/-- Claim C10: a valid contact-change submission with regenerate_secrets unset
changes only the email (order secret and all position secrets untouched, no
cached-ticket deletion, only the contact-change log); with the option set it
assigns the freshly generated secret to the order and the successive fresh
secrets to the positions, deletes the cached tickets, writes the
secret-changed log entry, and in both cases the new email is saved. -/
theorem c10_contact_change_effects (o : COrder) (newEmail freshSecret : String)
    (g : Nat → String) :
    (OrderContactChange.post o true newEmail false freshSecret g).order
        = { o with email := newEmail } ∧
    (OrderContactChange.post o true newEmail false freshSecret g).cachedTicketsDeleted = false ∧
    (OrderContactChange.post o true newEmail false freshSecret g).logs
        = ["pretix.event.order.contact.changed"] ∧
    (OrderContactChange.post o true newEmail true freshSecret g).order.email = newEmail ∧
    (OrderContactChange.post o true newEmail true freshSecret g).order.secret = freshSecret ∧
    (OrderContactChange.post o true newEmail true freshSecret g).order.positions.map CPos.secret
        = (List.range' 0 o.positions.length).map g ∧
    (OrderContactChange.post o true newEmail true freshSecret g).cachedTicketsDeleted = true ∧
    "pretix.event.order.secret.changed" ∈
      (OrderContactChange.post o true newEmail true freshSecret g).logs := by
  simp [OrderContactChange.post, regenPositions_secrets]

end PretixOrders
